import Mathlib

set_option linter.unusedVariables false

/-! Shallow embedding of gotham's static-file subsystem
    (src/gotham/src/handler/static_file.rs). Filesystem paths are modelled
    as lists of path components, file contents as lists of bytes, and the
    filesystem itself as an abstract environment providing the two fallible
    operations the handler performs (metadata lookup, open-and-read-to-end). -/

/-- Path components, mirroring std::path::Component as it occurs while
folding a request path: an ordinary name, a parent-directory step, a
current-directory step, or a root marker. Rust's component parser never
yields a Normal component that is empty, a dot or a dot-dot; component lists
obeying that restriction are singled out by validComp below. -/
inductive Component where
  | normal (s : String)
  | parentDir
  | curDir
  | rootDir
deriving DecidableEq

/-- Classification of one URL segment into the component it contributes when
pushed onto a PathBuf, modelling PathBuf::from_iter followed by
Path::components(): empty segments vanish, a dot is a current-directory
step, a dot-dot a parent-directory step, anything else an ordinary name.
Segments are slash-free by the router contract of the spec. -/
def classify (s : String) : Option Component :=
  if s = "" then none
  else if s = "." then some Component.curDir
  else if s = ".." then some Component.parentDir
  else some (Component.normal s)

/-- Components of the PathBuf built from the wildcard-captured request parts,
modelling PathBuf::from_iter(&FilePathExtractor::borrow_from(&state).parts)
viewed through Path::components(). -/
def requestComponents (parts : List String) : List Component :=
  parts.filterMap classify

/-- One step of the fold inside normalize_path: an ordinary name is pushed,
a parent-directory component pops the last pushed name (PathBuf::pop, a
no-op on an empty buffer), every other component is dropped. -/
def normStep (result : List String) (p : Component) : List String :=
  match p with
  | Component.normal x => result ++ [x]
  | Component.parentDir => result.dropLast
  | _ => result

/-- Embedding of normalize_path: fold normStep over the path's components,
starting from the empty accumulator. -/
def normalize_path (path : List Component) : List String :=
  path.foldl normStep []

/-- Valid component: Rust's component parser never yields a Normal component
that is empty, a dot or a dot-dot. -/
def validComp : Component → Bool
  | Component.normal s => (s != "") && (s != ".") && (s != "..")
  | _ => true

/-- Embedding of std::io::ErrorKind restricted to what error_response
distinguishes: the two kinds its match names, and a numbered family standing
for every other kind (the wildcard arm of the match). -/
inductive ErrorKind where
  | notFound
  | permissionDenied
  | other (code : Nat)
deriving DecidableEq

/-- Embedding of hyper::StatusCode restricted to the four codes this module
produces. -/
inductive StatusCode where
  | ok
  | notFound
  | forbidden
  | internalServerError
deriving DecidableEq

/-- Numeric value of a status code. -/
def StatusCode.code : StatusCode → Nat
  | StatusCode.ok => 200
  | StatusCode.notFound => 404
  | StatusCode.forbidden => 403
  | StatusCode.internalServerError => 500

/-- Rendering of a status code as hyper's Display implementation prints it
(numeric code followed by the canonical reason phrase). -/
def StatusCode.render : StatusCode → String
  | StatusCode.ok => "200 OK"
  | StatusCode.notFound => "404 Not Found"
  | StatusCode.forbidden => "403 Forbidden"
  | StatusCode.internalServerError => "500 Internal Server Error"

/-- Byte encoding of an ASCII string, modelling String::into_bytes for the
ASCII status texts used in error bodies. -/
def strBytes (s : String) : List UInt8 :=
  s.data.map (fun c => UInt8.ofNat c.toNat)

/-- Embedding of hyper::Response restricted to what this module sets on it:
status, body bytes and content type. -/
structure Response where
  status : StatusCode
  body : List UInt8
  mime : Option String
deriving DecidableEq

/-- Per-request state as far as this module reads it: the wildcard-captured
segments (the FilePathExtractor's parts field) plus the rest of the request
(URL query and everything else), which the module never inspects. -/
structure State where
  parts : List String
  rest : String

/-- Embedding of gotham's create_response as used by this module: build a
response from the status and the optional body/content-type pair. The state
argument only contributes generic headers, which are outside this model. -/
def create_response (state : State) (status : StatusCode)
    (body : Option (List UInt8 × String)) : Response :=
  match body with
  | some (contents, mime) => { status := status, body := contents, mime := some mime }
  | none => { status := status, body := [], mime := none }

/-- Embedding of error_response: map the error's kind to a status (NotFound
to 404, PermissionDenied to 403, anything else to 500) and answer with the
plain-text rendering of that status as the body. -/
def error_response (state : State) (e : ErrorKind) : Response :=
  let status :=
    match e with
    | ErrorKind.notFound => StatusCode.notFound
    | ErrorKind.permissionDenied => StatusCode.forbidden
    | _ => StatusCode.internalServerError
  create_response state status (some (strBytes status.render, "text/plain"))

/-- Result of a successful metadata lookup; its length is read only to size
the buffer (Vec::with_capacity), never branched on. -/
structure Metadata where
  len : Nat

/-- Abstract filesystem environment: the two fallible operations that
create_file_response performs on a path — fs::metadata, and fs::File::open
followed by read_to_end (merged into one operation, as the code chains them
with and_then and the question-mark operator). -/
structure FileSystem where
  metadata : List String → Except ErrorKind Metadata
  readAll : List String → Except ErrorKind (List UInt8)

/-- Modelled from the spec: the static extension-to-MIME table consulted by
the external mime_guess crate's guess_mime_type_opt (an excerpt holding the
mappings the spec names plus common neighbours); the crate is a dependency,
not part of this repository's sources. -/
def mimeTable : List (String × String) :=
  [("css", "text/css"),
   ("gif", "image/gif"),
   ("htm", "text/html"),
   ("html", "text/html"),
   ("jpeg", "image/jpeg"),
   ("jpg", "image/jpeg"),
   ("js", "application/javascript"),
   ("json", "application/json"),
   ("png", "image/png"),
   ("txt", "text/plain")]

/-- Extension of a file name, following std::path::Path::extension: the part
after the last dot; none when there is no dot, when the only dot is the
leading dot of a hidden file, or when the component is a dot or dot-dot
(for which file_name itself is already none). -/
def extOfName (name : String) : Option String :=
  if name = "." || name = ".." then none
  else
    let rev := name.data.reverse
    if rev.contains '.' then
      let after := (rev.takeWhile (fun c => c != '.')).reverse
      let keptRev := rev.dropWhile (fun c => c != '.')
      if keptRev.length ≤ 1 then none else some (String.mk after)
    else none

/-- Extension of a path: the extension of its file name, the last
component. -/
def extOfPath (path : List String) : Option String :=
  path.getLast?.bind extOfName

/-- Modelled from the spec: mime_guess::guess_mime_type_opt — look the
path's extension up in the static table; none when the extension is absent
or unknown. -/
def guess_mime_type_opt (path : List String) : Option String :=
  (extOfPath path).bind (fun ext => mimeTable.lookup ext)

/-- Embedding of mime_for_path: the guessed MIME type, defaulting to
text/plain when the guess yields none. -/
def mime_for_path (path : List String) : String :=
  (guess_mime_type_opt path).getD "text/plain"

/-- Embedding of create_file_response: look up metadata, then open and read
the whole file; on success of both, a 200 response carrying the file bytes
and the MIME type inferred from the path, on either failure the error
response for that failure's kind. -/
def create_file_response (fs : FileSystem) (path : List String) (state : State) : Response :=
  match fs.metadata path with
  | Except.error err => error_response state err
  | Except.ok _meta =>
    match fs.readAll path with
    | Except.error err => error_response state err
    | Except.ok contents =>
      create_response state StatusCode.ok (some (contents, mime_for_path path))

/-- Embedding of FileSystemHandler: a root directory bound at
construction. -/
structure FileSystemHandler where
  root : List String
deriving DecidableEq

/-- Embedding of FileHandler: one fixed file path bound at construction. -/
structure FileHandler where
  path : List String
deriving DecidableEq

/-- Final path computed inside FileSystemHandler::handle: the root, extended
with the components of the normalized request path (PathBuf::extend pushes
each normalized component onto the base path). -/
def resolvedPath (root : List String) (parts : List String) : List String :=
  root ++ normalize_path (requestComponents parts)

/-- Embedding of FileSystemHandler::handle: resolve the captured segments
under the root and serve the resulting path. -/
def FileSystemHandler.handle (h : FileSystemHandler) (fs : FileSystem)
    (state : State) : Response :=
  create_file_response fs (resolvedPath h.root state.parts) state

/-- Embedding of FileHandler::handle: serve the bound path, reading nothing
from the request. -/
def FileHandler.handle (h : FileHandler) (fs : FileSystem) (state : State) : Response :=
  create_file_response fs h.path state

/-- Embedding of the NewHandler implementation for FileHandler:
Ok(self.clone()). -/
def FileHandler.new_handler (h : FileHandler) : Except ErrorKind FileHandler :=
  Except.ok h

/-- Embedding of the NewHandler implementation for FileSystemHandler:
Ok(self.clone()). -/
def FileSystemHandler.new_handler (h : FileSystemHandler) :
    Except ErrorKind FileSystemHandler :=
  Except.ok h

/-- Concrete per-request state with no captured segments, used by the
concrete instantiations below. -/
def st0 : State :=
  { parts := [], rest := "" }

/-- Filesystem in which the resolved path is a directory: metadata
succeeds (directories have metadata), while open-and-read fails. The kind
carried by the failure is the one the platform reports for reading a
directory; on the platforms this code targets that is EISDIR, which the
standard library of the code's era maps to the catch-all kind, not to
NotFound. -/
def directoryFs : FileSystem :=
  { metadata := fun _ => Except.ok { len := 4096 },
    readAll := fun _ => Except.error (ErrorKind.other 0) }

/-- Filesystem in which no path exists: both operations fail with the
not-found kind. -/
def absentFs : FileSystem :=
  { metadata := fun _ => Except.error ErrorKind.notFound,
    readAll := fun _ => Except.error ErrorKind.notFound }

/-- Contents of the test asset doc.html. -/
def docBytes : List UInt8 :=
  strBytes "<html>I am a doc.</html>"

/-- Filesystem holding one readable file whose contents are docBytes. -/
def docFs : FileSystem :=
  { metadata := fun _ => Except.ok { len := 24 },
    readAll := fun _ => Except.ok docBytes }

theorem mem_foldl_normStep (cs : List Component) :
    ∀ (acc : List String) (x : String), x ∈ cs.foldl normStep acc →
      x ∈ acc ∨ ∃ s, Component.normal s ∈ cs ∧ x = s := by
  induction cs with
  | nil =>
    intro acc x hx
    exact Or.inl hx
  | cons c cs ih =>
    intro acc x hx
    rw [List.foldl_cons] at hx
    rcases ih (normStep acc c) x hx with h | ⟨s, hs, rfl⟩
    · cases c with
      | normal y =>
        rw [normStep] at h
        rcases List.mem_append.mp h with h | h
        · exact Or.inl h
        · exact Or.inr ⟨y, by simp, (List.mem_singleton.mp h)⟩
      | parentDir => exact Or.inl (List.dropLast_subset acc h)
      | curDir => exact Or.inl h
      | rootDir => exact Or.inl h
    · exact Or.inr ⟨x, by simp [hs], rfl⟩

theorem foldl_normStep_normals (names : List String) :
    ∀ acc : List String, (names.map Component.normal).foldl normStep acc = acc ++ names := by
  induction names with
  | nil =>
    intro acc
    simp
  | cons n ns ih =>
    intro acc
    rw [List.map_cons, List.foldl_cons, ih]
    simp [normStep]

theorem foldl_normStep_replicate :
    ∀ (n : Nat) (acc : List String), acc.length = n →
      (List.replicate n Component.parentDir).foldl normStep acc = [] := by
  intro n
  induction n with
  | zero =>
    intro acc h
    rw [List.length_eq_zero] at h
    simp [h]
  | succ n ih =>
    intro acc h
    rw [List.replicate_succ, List.foldl_cons]
    apply ih
    simp [normStep, List.length_dropLast, h]

theorem classify_eq_normal {seg s : String}
    (h : classify seg = some (Component.normal s)) :
    s = seg ∧ s ≠ "" ∧ s ≠ "." ∧ s ≠ ".." := by
  rw [classify] at h
  split_ifs at h with h1 h2 h3 <;> simp_all

theorem mem_normalize_request {parts : List String} {x : String}
    (hx : x ∈ normalize_path (requestComponents parts)) :
    x ≠ "" ∧ x ≠ "." ∧ x ≠ ".." := by
  rcases mem_foldl_normStep (requestComponents parts) [] x hx with h | ⟨s, hs, rfl⟩
  · simp at h
  · rw [requestComponents, List.mem_filterMap] at hs
    rcases hs with ⟨seg, _, hseg⟩
    rcases classify_eq_normal hseg with ⟨_, h1, h2, h3⟩
    exact ⟨h1, h2, h3⟩

theorem requestComponents_map_normal (l : List String)
    (h : ∀ s ∈ l, s ≠ "" ∧ s ≠ "." ∧ s ≠ "..") :
    requestComponents l = l.map Component.normal := by
  induction l with
  | nil => rfl
  | cons a l ih =>
    have ha := h a (by simp)
    have hc : classify a = some (Component.normal a) := by
      rw [classify, if_neg ha.1, if_neg ha.2.1, if_neg ha.2.2]
    rw [requestComponents, List.filterMap_cons, hc, List.map_cons]
    rw [requestComponents] at ih
    rw [ih (fun s hs => h s (by simp [hs]))]

theorem mem_normalize_valid {cs : List Component}
    (hv : ∀ c ∈ cs, validComp c = true) {x : String}
    (hx : x ∈ normalize_path cs) : x ≠ "" ∧ x ≠ "." ∧ x ≠ ".." := by
  rcases mem_foldl_normStep cs [] x hx with h | ⟨s, hs, rfl⟩
  · simp at h
  · have := hv _ hs
    rw [validComp] at this
    simpa [and_assoc] using this

theorem normalize_map_normal (l : List String) :
    normalize_path (l.map Component.normal) = l := by
  rw [normalize_path, foldl_normStep_normals l []]
  rfl

theorem filterMap_classify_replicate (n : Nat) :
    List.filterMap classify (List.replicate n "..") =
      List.replicate n Component.parentDir := by
  induction n with
  | zero => rfl
  | succ n ih =>
    rw [List.replicate_succ, List.replicate_succ, List.filterMap_cons]
    rw [show classify ".." = some Component.parentDir from rfl, ih]

theorem normalize_append_cancel (names : List String) :
    normalize_path (names.map Component.normal ++
      List.replicate names.length Component.parentDir) = [] := by
  rw [normalize_path, List.foldl_append, foldl_normStep_normals names []]
  exact foldl_normStep_replicate names.length ([] ++ names) (by simp)

theorem create_file_response_state_irrelevant (fs : FileSystem)
    (p : List String) (st st' : State) :
    create_file_response fs p st = create_file_response fs p st' := by
  rw [create_file_response, create_file_response]
  cases fs.metadata p with
  | error e => rfl
  | ok m =>
    cases fs.readAll p with
    | error e => rfl
    | ok c => rfl

/-- C1: for every root and every sequence of requested segments — parent-dir,
empty and current-dir segments included — the path computed by the rooted
resolver is the root followed by a relative part made only of ordinary name
components: no dot-dot survives into the joined result, and the component
count relative to the root (the length of the relative part) never goes
negative. -/
theorem c1_rooted_resolution_inside_root (root parts : List String) :
    (∃ rel, resolvedPath root parts = root ++ rel ∧
      ∀ s ∈ rel, s ≠ ".." ∧ s ≠ "." ∧ s ≠ "") ∧
    root.length ≤ (resolvedPath root parts).length := by
  constructor
  · refine ⟨normalize_path (requestComponents parts), rfl, ?_⟩
    intro s hs
    have h := mem_normalize_request hs
    exact ⟨h.2.2, h.2.1, h.1⟩
  · rw [resolvedPath, List.length_append]
    exact Nat.le_add_right _ _

/-- C2 (amended): when the final path resolves to a directory — metadata
succeeds but the read fails — serving produces the error response for the
read failure's kind: never a success, and status 404 exactly when that kind
is not-found. The original claim's unconditional 404 does not hold, because
the kind a platform reports for reading a directory need not be not-found. -/
theorem c2_directory_error_surfaced (fs : FileSystem) (root parts : List String)
    (q : String) (m : Metadata) (k : ErrorKind)
    (hm : fs.metadata (resolvedPath root parts) = Except.ok m)
    (hr : fs.readAll (resolvedPath root parts) = Except.error k) :
    (FileSystemHandler.mk root).handle fs { parts := parts, rest := q } =
      error_response { parts := parts, rest := q } k ∧
    ((FileSystemHandler.mk root).handle fs { parts := parts, rest := q }).status ≠
      StatusCode.ok ∧
    (((FileSystemHandler.mk root).handle fs { parts := parts, rest := q }).status =
      StatusCode.notFound ↔ k = ErrorKind.notFound) := by
  have h1 : (FileSystemHandler.mk root).handle fs { parts := parts, rest := q } =
      error_response { parts := parts, rest := q } k := by
    show create_file_response fs (resolvedPath root parts)
      { parts := parts, rest := q } = _
    simp only [create_file_response, hm, hr]
  refine ⟨h1, ?_, ?_⟩
  · rw [h1]
    cases k <;> simp [error_response, create_response]
  · rw [h1]
    cases k <;> simp [error_response, create_response]

/-- C2 counterexample: a concrete directory scenario — the empty segment
sequence resolves to the root itself, the root is a directory (metadata
succeeds), and its read fails with the catch-all kind, the mapping of EISDIR
in the standard library of the code's era — yields status 500, not the 404
the claim promises. -/
theorem c2_directory_status_counterexample :
    ((FileSystemHandler.mk ["root"]).handle directoryFs st0).status.code = 500 ∧
    ((FileSystemHandler.mk ["root"]).handle directoryFs st0).status ≠
      StatusCode.notFound := by
  constructor
  · decide
  · decide

/-- C2 witness: the amended theorem instantiated at the concrete directory
filesystem, the root ["root"] and the empty segment sequence. -/
theorem c2_directory_error_surfaced_witness :
    directoryFs.metadata (resolvedPath ["root"] []) = Except.ok { len := 4096 } ∧
    directoryFs.readAll (resolvedPath ["root"] []) =
      Except.error (ErrorKind.other 0) ∧
    ((FileSystemHandler.mk ["root"]).handle directoryFs { parts := [], rest := "" } =
      error_response { parts := [], rest := "" } (ErrorKind.other 0) ∧
     ((FileSystemHandler.mk ["root"]).handle directoryFs
        { parts := [], rest := "" }).status ≠ StatusCode.ok ∧
     (((FileSystemHandler.mk ["root"]).handle directoryFs
        { parts := [], rest := "" }).status = StatusCode.notFound ↔
      ErrorKind.other 0 = ErrorKind.notFound)) :=
  ⟨rfl, rfl,
    c2_directory_error_surfaced directoryFs ["root"] [] "" { len := 4096 }
      (ErrorKind.other 0) rfl rfl⟩

/-- C3: every I/O failure during metadata lookup or read yields the error
response for the failure's kind — not-found to 404, permission-denied to
403, any other kind to 500 — whose body is exactly the plain-text rendering
of the status (so no stack trace and no filesystem path), with content type
text/plain. -/
theorem c3_error_kind_mapping (fs : FileSystem) (p : List String) (st : State)
    (e : ErrorKind)
    (hfail : fs.metadata p = Except.error e ∨
      ∃ m, fs.metadata p = Except.ok m ∧ fs.readAll p = Except.error e) :
    create_file_response fs p st = error_response st e ∧
    (e = ErrorKind.notFound → (error_response st e).status.code = 404) ∧
    (e = ErrorKind.permissionDenied → (error_response st e).status.code = 403) ∧
    (e ≠ ErrorKind.notFound → e ≠ ErrorKind.permissionDenied →
      (error_response st e).status.code = 500) ∧
    (error_response st e).body = strBytes (error_response st e).status.render ∧
    (error_response st e).mime = some "text/plain" := by
  refine ⟨?_, ?_, ?_, ?_, ?_, ?_⟩
  · rcases hfail with h | ⟨m, hm, hr⟩
    · simp only [create_file_response, h]
    · simp only [create_file_response, hm, hr]
  · intro he
    subst he
    rfl
  · intro he
    subst he
    rfl
  · intro h1 h2
    cases e with
    | notFound => exact absurd rfl h1
    | permissionDenied => exact absurd rfl h2
    | other code => rfl
  · cases e <;> rfl
  · cases e <;> rfl

/-- C3 witness: the mapping theorem instantiated at a filesystem whose
metadata lookup fails with the not-found kind. -/
theorem c3_error_kind_mapping_witness :
    absentFs.metadata ["missing.txt"] = Except.error ErrorKind.notFound ∧
    (create_file_response absentFs ["missing.txt"] st0 =
      error_response st0 ErrorKind.notFound ∧
     (ErrorKind.notFound = ErrorKind.notFound →
       (error_response st0 ErrorKind.notFound).status.code = 404) ∧
     (ErrorKind.notFound = ErrorKind.permissionDenied →
       (error_response st0 ErrorKind.notFound).status.code = 403) ∧
     (ErrorKind.notFound ≠ ErrorKind.notFound →
       ErrorKind.notFound ≠ ErrorKind.permissionDenied →
       (error_response st0 ErrorKind.notFound).status.code = 500) ∧
     (error_response st0 ErrorKind.notFound).body =
       strBytes (error_response st0 ErrorKind.notFound).status.render ∧
     (error_response st0 ErrorKind.notFound).mime = some "text/plain") :=
  ⟨rfl, c3_error_kind_mapping absentFs ["missing.txt"] st0 ErrorKind.notFound
    (Or.inl rfl)⟩

/-- C4: when metadata lookup and the full read both succeed, the response is
status 200 with body byte-for-byte equal to the file's contents and content
type the MIME type inferred from the path's extension; the inference is
total — a known extension maps through the static table and an unknown or
absent extension falls back to text/plain rather than erroring. -/
theorem c4_success_serving (fs : FileSystem) (p : List String) (st : State)
    (m : Metadata) (contents : List UInt8)
    (hm : fs.metadata p = Except.ok m)
    (hr : fs.readAll p = Except.ok contents) :
    create_file_response fs p st =
      { status := StatusCode.ok, body := contents,
        mime := some (mime_for_path p) } ∧
    (guess_mime_type_opt p = none → mime_for_path p = "text/plain") ∧
    (∀ mt, guess_mime_type_opt p = some mt → mime_for_path p = mt) := by
  refine ⟨?_, ?_, ?_⟩
  · simp only [create_file_response, hm, hr, create_response]
  · intro h
    simp [mime_for_path, h]
  · intro mt h
    simp [mime_for_path, h]

/-- C4 witness: the success theorem instantiated at a filesystem holding
doc.html with known contents. -/
theorem c4_success_serving_witness :
    docFs.metadata ["doc.html"] = Except.ok { len := 24 } ∧
    docFs.readAll ["doc.html"] = Except.ok docBytes ∧
    (create_file_response docFs ["doc.html"] st0 =
      { status := StatusCode.ok, body := docBytes,
        mime := some (mime_for_path ["doc.html"]) } ∧
     (guess_mime_type_opt ["doc.html"] = none →
       mime_for_path ["doc.html"] = "text/plain") ∧
     (∀ mt, guess_mime_type_opt ["doc.html"] = some mt →
       mime_for_path ["doc.html"] = mt)) :=
  ⟨rfl, rfl,
    c4_success_serving docFs ["doc.html"] st0 { len := 24 } docBytes rfl rfl⟩

/-- C5: the rooted resolver's final path equals the root joined with the
normalized segment sequence — the handler serves exactly that path — the
computation is total by construction, and the empty sequence resolves to
the root itself. -/
theorem c5_resolver_join (h : FileSystemHandler) (fs : FileSystem)
    (parts : List String) (q : String) :
    h.handle fs { parts := parts, rest := q } =
      create_file_response fs (h.root ++ normalize_path (requestComponents parts))
        { parts := parts, rest := q } ∧
    resolvedPath h.root parts = h.root ++ normalize_path (requestComponents parts) ∧
    resolvedPath h.root [] = h.root := by
  refine ⟨rfl, rfl, ?_⟩
  rw [resolvedPath]
  simp [normalize_path, requestComponents]

/-- C6: normalizing a sequence of N ordinary segment names followed by N
parent-directory segments yields the empty relative path, for every N and
every choice of ordinary names. -/
theorem c6_round_trip_cancellation (names : List String)
    (h : ∀ s ∈ names, s ≠ "" ∧ s ≠ "." ∧ s ≠ "..") :
    normalize_path (requestComponents
      (names ++ List.replicate names.length "..")) = [] := by
  rw [requestComponents, List.filterMap_append, filterMap_classify_replicate]
  have h1 : List.filterMap classify names = names.map Component.normal := by
    have h2 := requestComponents_map_normal names h
    rwa [requestComponents] at h2
  rw [h1]
  exact normalize_append_cancel names

/-- C6 witness: the cancellation theorem instantiated at two ordinary
segments followed by two parent-directory segments. -/
theorem c6_round_trip_cancellation_witness :
    (∀ s ∈ ["a", "b"], s ≠ "" ∧ s ≠ "." ∧ s ≠ "..") ∧
    normalize_path (requestComponents
      (["a", "b"] ++ List.replicate (["a", "b"] : List String).length "..")) = [] :=
  ⟨by decide, c6_round_trip_cancellation ["a", "b"] (by decide)⟩

/-- C7: normalizing the segment sequence ["a", "..", "..", "b"] yields the
single component ["b"]: the second parent-directory segment meets an empty
accumulator and is absorbed as a no-op rather than deferred to cancel the
later push of "b". -/
theorem c7_excess_escape_absorbed :
    normalize_path (requestComponents ["a", "..", "..", "b"]) = ["b"] := by
  decide

/-- C8: the single-file handler serves the path it was bound to at
construction and ignores all request content — any two request states
produce the identical response, hence the same contents and content type. -/
theorem c8_single_file_ignores_request (h : FileHandler) (fs : FileSystem)
    (st st' : State) :
    h.handle fs st = create_file_response fs h.path st ∧
    h.handle fs st = h.handle fs st' := by
  refine ⟨rfl, ?_⟩
  exact create_file_response_state_irrelevant fs h.path st st'

/-- C9: normalization is idempotent — for every path whose components are
valid (as every path produced by Rust's component parser is), parsing the
normalized output as a path and normalizing again returns it unchanged,
because the output contains only ordinary components. -/
theorem c9_normalize_idempotent (cs : List Component)
    (hv : ∀ c ∈ cs, validComp c = true) :
    normalize_path (requestComponents (normalize_path cs)) = normalize_path cs := by
  rw [requestComponents_map_normal (normalize_path cs)
      (fun s hs => mem_normalize_valid hv hs),
    normalize_map_normal]

/-- C9 witness: idempotence instantiated at a concrete valid component
list containing a parent-directory step. -/
theorem c9_normalize_idempotent_witness :
    (∀ c ∈ [Component.normal "a", Component.parentDir, Component.normal "b"],
      validComp c = true) ∧
    normalize_path (requestComponents (normalize_path
      [Component.normal "a", Component.parentDir, Component.normal "b"])) =
      normalize_path [Component.normal "a", Component.parentDir, Component.normal "b"] :=
  ⟨by decide, c9_normalize_idempotent _ (by decide)⟩

/-- C10: for both handler types, new_handler always succeeds and returns the
handler it was called on, so per-dispatch construction has no failure path
and every constructed instance carries the same bound path as the
original. -/
theorem c10_new_handler_infallible (h : FileHandler) (g : FileSystemHandler) :
    FileHandler.new_handler h = Except.ok h ∧
    FileSystemHandler.new_handler g = Except.ok g ∧
    (∀ h', FileHandler.new_handler h = Except.ok h' → h'.path = h.path) ∧
    (∀ g', FileSystemHandler.new_handler g = Except.ok g' → g'.root = g.root) := by
  refine ⟨rfl, rfl, ?_, ?_⟩
  · intro h' hh
    rw [FileHandler.new_handler] at hh
    injection hh with hh2
    rw [← hh2]
  · intro g' hg
    rw [FileSystemHandler.new_handler] at hg
    injection hg with hg2
    rw [← hg2]
